import Mathlib

/-
Verification of the synchronization engine of the gmail-to-sqlite repository.

The development shallowly embeds the store layer (db.py in its two relevant
variants) and the sync layer (sync.py) as executable Lean functions over an
association-list model of the messages table, and proves the behavioural
properties of the specification against them.

Conventions:
- the sqlite `messages` table is a `List Row`; the UNIQUE constraint on
  `message_id` appears as a `Nodup` hypothesis where a proof needs it;
- `datetime.now()` is modelled by an explicit `now : Nat` parameter handed to
  each store operation (the ambient wall clock);
- JSON payloads (sender, recipients, labels) are opaque strings: no claim
  inspects their structure.
-/

namespace GmailToSqlite

/-- Constants from src/constants.py and src/gmail_to_sqlite (constants module):
MAX_RETRY_ATTEMPTS = 3. -/
def MAX_RETRY_ATTEMPTS : Nat := 3

/-- RETRY_DELAY_SECONDS = 5 (fixed backoff delay of the fetcher). -/
def RETRY_DELAY_SECONDS : Nat := 5

/-- MAX_RESULTS_PER_PAGE = 500 (page size of the listing phase). -/
def MAX_RESULTS_PER_PAGE : Nat := 500

/-- A decoded message as produced by message.Message.from_raw: the argument
`create_message` receives.  Fields follow the message.Message class. -/
structure Msg where
  id : String
  thread_id : String
  sender : String
  recipients : String
  labels : String
  subject : Option String
  body : Option String
  size : Nat
  timestamp : Nat
  is_read : Bool
  is_outgoing : Bool
  deriving DecidableEq

namespace GmailDb

/-- Row of the `messages` table as declared by the peewee model Message in
src/gmail_to_sqlite/db.py (message_id unique, is_deleted defaulting false). -/
structure Row where
  message_id : String
  thread_id : String
  sender : String
  recipients : String
  labels : String
  subject : Option String
  body : Option String
  size : Nat
  timestamp : Nat
  is_read : Bool
  is_outgoing : Bool
  is_deleted : Bool
  last_indexed : Nat
  deriving DecidableEq

/-- Observer: the stored row for a given message_id (SELECT by primary key). -/
def lookup (s : List Row) (id : String) : Option Row :=
  s.find? (fun r => r.message_id == id)

/-- The row built from an incoming message by the INSERT part of
create_message (src/gmail_to_sqlite/db.py lines 136-149): is_deleted is
written false and last_indexed is the current write time. -/
def rowOfMsg (m : Msg) (now : Nat) : Row :=
  { message_id := m.id
    thread_id := m.thread_id
    sender := m.sender
    recipients := m.recipients
    labels := m.labels
    subject := m.subject
    body := m.body
    size := m.size
    timestamp := m.timestamp
    is_read := m.is_read
    is_outgoing := m.is_outgoing
    is_deleted := false
    last_indexed := now }

/-- The ON CONFLICT DO UPDATE clause of create_message
(src/gmail_to_sqlite/db.py lines 150-158): SET is_read, last_indexed,
labels, is_deleted = false; every other column keeps its stored value. -/
def updateRow (r : Row) (m : Msg) (now : Nat) : Row :=
  { r with
    is_read := m.is_read
    last_indexed := now
    labels := m.labels
    is_deleted := false }

/-- create_message (src/gmail_to_sqlite/db.py lines 124-160): INSERT ... ON
CONFLICT(message_id) DO UPDATE, applied to the association-list table. -/
def create_message (s : List Row) (m : Msg) (now : Nat) : List Row :=
  if s.any (fun r => r.message_id == m.id) then
    s.map (fun r => if r.message_id == m.id then updateRow r m now else r)
  else s ++ [rowOfMsg m now]

/-- get_all_message_ids (src/gmail_to_sqlite/db.py lines 224-237): every
message_id stored, with no filter on is_deleted. -/
def get_all_message_ids (s : List Row) : List String :=
  s.map (fun r => r.message_id)

/-- get_deleted_message_ids (src/gmail_to_sqlite/db.py lines 240-258): the
message_id of every row already marked deleted. -/
def get_deleted_message_ids (s : List Row) : List String :=
  (s.filter (fun r => r.is_deleted)).map (fun r => r.message_id)

/-- Effect of one UPDATE statement of mark_messages_as_deleted on one row:
rows whose id is in the batch get is_deleted = true and last_indexed = now
(src/gmail_to_sqlite/db.py line 217 updates both columns). -/
def markRow (ids : List String) (now : Nat) (r : Row) : Row :=
  if ids.contains r.message_id then
    { r with is_deleted := true, last_indexed := now }
  else r

/-- Slicing of the id list into batches of 100, mirroring
range(0, len(message_ids), batch_size) with batch_size = 100.  The fuel
argument (instantiated with the list length) makes the recursion
structural. -/
def toBatchesAux : Nat → List String → List (List String)
  | 0, _ => []
  | _, [] => []
  | fuel + 1, l => l.take 100 :: toBatchesAux fuel (l.drop 100)

/-- Batches of at most 100 ids, in order (src/gmail_to_sqlite/db.py
lines 213-215). -/
def toBatches (l : List String) : List (List String) :=
  toBatchesAux l.length l

/-- mark_messages_as_deleted (src/gmail_to_sqlite/db.py lines 195-221):
early return on an empty id list, then one batched UPDATE per slice of 100
ids, each setting is_deleted = true and last_indexed = now. -/
def mark_messages_as_deleted (s : List Row) (message_ids : List String)
    (now : Nat) : List Row :=
  if message_ids.isEmpty then s
  else (toBatches message_ids).foldl (fun acc batch => acc.map (markRow batch now)) s

/-- last_indexed (src/gmail_to_sqlite/db.py lines 163-176): ORDER BY
timestamp DESC, first row.  The first row of the descending order carries the
maximum timestamp over all rows; there is no filter on is_deleted. -/
def last_indexed (s : List Row) : Option Nat :=
  match s.map (fun r => r.timestamp) with
  | [] => none
  | t :: ts => some (ts.foldl (fun a b => max a b) t)

/-- first_indexed (src/gmail_to_sqlite/db.py lines 179-192): ORDER BY
timestamp ASC, first row: the minimum timestamp, again with no is_deleted
filter. -/
def first_indexed (s : List Row) : Option Nat :=
  match s.map (fun r => r.timestamp) with
  | [] => none
  | t :: ts => some (ts.foldl (fun a b => min a b) t)

end GmailDb

namespace MailDb

/-- Row of the `messages` table as declared in src/src/mail_to_sqlite/db.py
(the explicit-clobber store variant; its model carries no is_deleted
column). -/
structure Row where
  message_id : String
  thread_id : String
  sender : String
  recipients : String
  labels : String
  subject : Option String
  body : Option String
  size : Nat
  timestamp : Nat
  is_read : Bool
  is_outgoing : Bool
  last_indexed : Nat
  deriving DecidableEq

/-- Observer: the stored row for a given message_id. -/
def lookup (s : List Row) (id : String) : Option Row :=
  s.find? (fun r => r.message_id == id)

/-- Row built by the INSERT part of create_message
(src/src/mail_to_sqlite/db.py lines 83-95). -/
def rowOfMsg (m : Msg) (now : Nat) : Row :=
  { message_id := m.id
    thread_id := m.thread_id
    sender := m.sender
    recipients := m.recipients
    labels := m.labels
    subject := m.subject
    body := m.body
    size := m.size
    timestamp := m.timestamp
    is_read := m.is_read
    is_outgoing := m.is_outgoing
    last_indexed := now }

/-- The ON CONFLICT clause of the explicit-clobber create_message
(src/src/mail_to_sqlite/db.py lines 96-114): a field named in `clobber` is
taken from the inserted row (peewee `preserve` keeps the value of the
proposed INSERT, as the source comment notes), last_indexed is always
refreshed, and every other field keeps its stored value. -/
def updateRow (r : Row) (m : Msg) (clobber : List String) (now : Nat) : Row :=
  { message_id := r.message_id
    thread_id := if clobber.contains "thread_id" then m.thread_id else r.thread_id
    sender := if clobber.contains "sender" then m.sender else r.sender
    recipients := if clobber.contains "recipients" then m.recipients else r.recipients
    subject := if clobber.contains "subject" then m.subject else r.subject
    body := if clobber.contains "body" then m.body else r.body
    size := if clobber.contains "size" then m.size else r.size
    timestamp := if clobber.contains "timestamp" then m.timestamp else r.timestamp
    is_outgoing := if clobber.contains "is_outgoing" then m.is_outgoing else r.is_outgoing
    is_read := if clobber.contains "is_read" then m.is_read else r.is_read
    labels := if clobber.contains "labels" then m.labels else r.labels
    last_indexed := now }

/-- create_message with a caller-supplied clobber list
(src/src/mail_to_sqlite/db.py lines 74-115): INSERT ... ON
CONFLICT(message_id), defaulting to an empty clobber list at every call
site that passes none. -/
def create_message (s : List Row) (m : Msg) (clobber : List String)
    (now : Nat) : List Row :=
  if s.any (fun r => r.message_id == m.id) then
    s.map (fun r => if r.message_id == m.id then updateRow r m clobber now else r)
  else s ++ [rowOfMsg m now]

end MailDb

namespace LegacyDb

/-- Row of the `messages` table as declared by the peewee model Message in
src/db.py (lines 33-50).  The timestamp column is nullable there
(null=True); only non-null values are modelled, as no claim depends on NULL
timestamps. -/
structure Row where
  message_id : String
  thread_id : String
  sender : String
  recipients : String
  labels : String
  subject : Option String
  body : Option String
  size : Nat
  timestamp : Nat
  is_read : Bool
  is_outgoing : Bool
  last_indexed : Nat
  is_deleted : Bool
  deriving DecidableEq

/-- Observer: the stored row for a given message_id. -/
def lookup (s : List Row) (id : String) : Option Row :=
  s.find? (fun r => r.message_id == id)

/-- Row built by the INSERT part of create_message (src/db.py
lines 85-98). -/
def rowOfMsg (m : Msg) (now : Nat) : Row :=
  { message_id := m.id
    thread_id := m.thread_id
    sender := m.sender
    recipients := m.recipients
    labels := m.labels
    subject := m.subject
    body := m.body
    size := m.size
    timestamp := m.timestamp
    is_read := m.is_read
    is_outgoing := m.is_outgoing
    last_indexed := now
    is_deleted := false }

/-- The ON CONFLICT clause of create_message in src/db.py (lines 99-117):
the update dict sets is_read, last_indexed, labels and is_deleted = false,
and the preserve list [thread_id, sender, recipients, subject, body, size,
timestamp, is_outgoing] takes each of those columns from the proposed
INSERT (peewee preserve keeps the value of the INSERTED row — EXCLUDED —
not the original row, as the repository documents in
src/src/mail_to_sqlite/db.py lines 98-100 and src/db.py lines 149-150).
Every content field is therefore overwritten from the incoming record on
conflict. -/
def updateRow (r : Row) (m : Msg) (now : Nat) : Row :=
  { message_id := r.message_id
    thread_id := m.thread_id
    sender := m.sender
    recipients := m.recipients
    labels := m.labels
    subject := m.subject
    body := m.body
    size := m.size
    timestamp := m.timestamp
    is_read := m.is_read
    is_outgoing := m.is_outgoing
    last_indexed := now
    is_deleted := false }

/-- create_message (src/db.py lines 76-117): INSERT ... ON
CONFLICT(message_id) with the preserve/update clause above, as called from
src/sync.py lines 216 and 313. -/
def create_message (s : List Row) (m : Msg) (now : Nat) : List Row :=
  if s.any (fun r => r.message_id == m.id) then
    s.map (fun r => if r.message_id == m.id then updateRow r m now else r)
  else s ++ [rowOfMsg m now]

end LegacyDb

namespace Sync

/-- What one iteration of the retry loop of _fetch_message observes from the
provider call plus decode (src/gmail_to_sqlite/sync.py lines 55-59):
success, an HttpError with a status, a timeout, or a successful provider
call whose decode (message.Message.from_raw) raises. -/
inductive AttemptOutcome
  | success
  | httpError (status : Nat)
  | timeout
  | decodeFailure
  deriving DecidableEq

/-- How a call of _fetch_message terminates: a parsed message is returned, a
SyncError is raised (per-message failure), or an InterruptedError is
raised. -/
inductive FetchResult
  | fetched
  | syncError
  | interrupted
  deriving DecidableEq

/-- The retry loop of _fetch_message (src/gmail_to_sqlite/sync.py
lines 51-109).  `outcomes i` is what attempt number i observes; `intr i` is
the value of the i-th check_interrupt poll.  The result carries the number
of provider calls made and of backoff sleeps performed.  `remaining`
(instantiated with MAX_RETRY_ATTEMPTS) makes the `for attempt in range`
loop structural; the bound `attempt < MAX_RETRY_ATTEMPTS - 1` is written as
in the source. -/
def fetchAux (outcomes : Nat → AttemptOutcome) (intr : Nat → Bool) :
    Nat → Nat → Nat → Nat → Nat → FetchResult × Nat × Nat
  | 0, _, _, calls, sleeps => (FetchResult.syncError, calls, sleeps)
  | remaining + 1, attempt, polls, calls, sleeps =>
    if intr polls then (FetchResult.interrupted, calls, sleeps)
    else
      match outcomes attempt with
      | AttemptOutcome.success => (FetchResult.fetched, calls + 1, sleeps)
      | AttemptOutcome.httpError status =>
        if 500 ≤ status ∧ attempt < MAX_RETRY_ATTEMPTS - 1 then
          if intr (polls + 1) then (FetchResult.interrupted, calls + 1, sleeps)
          else fetchAux outcomes intr remaining (attempt + 1) (polls + 2) (calls + 1) (sleeps + 1)
        else (FetchResult.syncError, calls + 1, sleeps)
      | AttemptOutcome.timeout =>
        if attempt < MAX_RETRY_ATTEMPTS - 1 then
          if intr (polls + 1) then (FetchResult.interrupted, calls + 1, sleeps)
          else fetchAux outcomes intr remaining (attempt + 1) (polls + 2) (calls + 1) (sleeps + 1)
        else (FetchResult.syncError, calls + 1, sleeps)
      | AttemptOutcome.decodeFailure =>
        if attempt < MAX_RETRY_ATTEMPTS - 1 then
          if intr (polls + 1) then (FetchResult.interrupted, calls + 1, sleeps)
          else fetchAux outcomes intr remaining (attempt + 1) (polls + 2) (calls + 1) (sleeps + 1)
        else (FetchResult.syncError, calls + 1, sleeps)

/-- fetch_message: run the retry loop from attempt 0 with fresh counters. -/
def fetch_message (outcomes : Nat → AttemptOutcome) (intr : Nat → Bool) :
    FetchResult × Nat × Nat :=
  fetchAux outcomes intr MAX_RETRY_ATTEMPTS 0 0 0 0

/-- A transient attempt outcome in the sense of the fetcher: a timeout or a
server error with 5xx status. -/
def transient (o : AttemptOutcome) : Prop :=
  o = AttemptOutcome.timeout ∨ ∃ status, 500 ≤ status ∧ o = AttemptOutcome.httpError status

/-- The shared shutdown flag, monotone over a run: `cancelAt = some k` means
the flag is observed true from the k-th poll on, `none` means it is never
set. -/
def shutdownAt (cancelAt : Option Nat) (poll : Nat) : Bool :=
  match cancelAt with
  | none => false
  | some k => decide (k ≤ poll)

/-- The pagination loop of get_message_ids_from_gmail
(src/gmail_to_sqlite/sync.py lines 182-208).  Each loop iteration polls the
shutdown flag, then consumes the next provider response (ids of the page and
whether a nextPageToken was returned).  Returns the accumulated ids together
with the index of the next shutdown poll. -/
def collect_pages (cancelAt : Option Nat) :
    List (List String × Bool) → Nat → List String → List String × Nat
  | pages, poll, acc =>
    if shutdownAt cancelAt poll then (acc, poll + 1)
    else
      match pages with
      | [] => (acc, poll + 1)
      | (msgs, hasNext) :: rest =>
        if hasNext then collect_pages cancelAt rest (poll + 1) (acc ++ msgs)
        else (acc ++ msgs, poll + 1)

/-- get_message_ids_from_gmail (src/gmail_to_sqlite/sync.py lines 154-222):
runs the pagination loop, then (lines 215-219) re-polls the shutdown flag
and returns the empty list when it is set, discarding everything
collected. -/
def get_message_ids_from_gmail (cancelAt : Option Nat)
    (pages : List (List String × Bool)) : List String :=
  if shutdownAt cancelAt (collect_pages cancelAt pages 0 []).2 then []
  else (collect_pages cancelAt pages 0 []).1

/-- The candidate ids of the full-sync path of all_messages that reach the
ThreadPoolExecutor submission (src/gmail_to_sqlite/sync.py lines 339-350 and
391-398): the listing result, unless the post-listing shutdown poll
(line 346) is positive, in which case the run returns 0 and dispatches
nothing. -/
def all_messages_dispatched (cancelAt : Option Nat)
    (pages : List (List String × Bool)) : List String :=
  if shutdownAt cancelAt ((collect_pages cancelAt pages 0 []).2 + 1) then []
  else get_message_ids_from_gmail cancelAt pages

/-- Accumulation of candidate ids across the query windows of an incremental
run (src/gmail_to_sqlite/sync.py lines 314-338): the listings are
concatenated with extend, with no deduplication. -/
def collected_candidate_ids (window_listings : List (List String)) : List String :=
  window_listings.foldl (fun acc ids => acc ++ ids) []

/-- The multiset of ids submitted to the worker pool (lines 395-398): one
executor.submit per element of all_message_ids — the dictionary is keyed by
the Future returned by each submit call, so duplicate ids each get their own
task. -/
def submitted_task_ids (window_listings : List (List String)) : List String :=
  collected_candidate_ids window_listings

/-- The local potential_deleted_ids of _detect_and_mark_deleted_messages
(src/gmail_to_sqlite/sync.py line 262): stored ids absent from the Gmail
snapshot. -/
def potential_deleted_ids (s : List GmailDb.Row)
    (gmail_message_ids : List String) : List String :=
  (GmailDb.get_all_message_ids s).filter (fun id => !(gmail_message_ids.contains id))

/-- The local new_deleted_ids (lines 263-267): the potential ids minus those
already marked deleted; the subtraction is skipped when nothing is marked
yet. -/
def new_deleted_ids (s : List GmailDb.Row)
    (gmail_message_ids : List String) : List String :=
  if (GmailDb.get_deleted_message_ids s).isEmpty then
    potential_deleted_ids s gmail_message_ids
  else
    (potential_deleted_ids s gmail_message_ids).filter
      (fun id => !((GmailDb.get_deleted_message_ids s).contains id))

/-- _detect_and_mark_deleted_messages (src/gmail_to_sqlite/sync.py
lines 225-281): compare all stored ids with the remote snapshot, skip when
the store is empty or shutdown is requested, subtract the already-deleted
ids, and mark the remainder.  Returns the updated store and the count of
newly marked ids (None when nothing was done). -/
def detect_and_mark_deleted_messages (s : List GmailDb.Row)
    (gmail_message_ids : List String) (shutdown : Bool) (now : Nat) :
    List GmailDb.Row × Option Nat :=
  if (GmailDb.get_all_message_ids s).isEmpty then (s, none)
  else if shutdown then (s, none)
  else
    if (new_deleted_ids s gmail_message_ids).isEmpty then (s, none)
    else (GmailDb.mark_messages_as_deleted s (new_deleted_ids s gmail_message_ids) now,
          some (new_deleted_ids s gmail_message_ids).length)

/-- The store-mutating operations of the engine: a successful
fetch-and-upsert of one message (db.create_message, called from the worker
threads of all_messages and from single_message) and the batched marking
performed by the deletion detector (db.mark_messages_as_deleted, called only
from _detect_and_mark_deleted_messages). -/
inductive EngineOp
  | upsert (m : Msg) (now : Nat)
  | markDeleted (ids : List String) (now : Nat)

/-- Effect of one engine operation on the stored table. -/
def EngineOp.apply (op : EngineOp) (s : List GmailDb.Row) : List GmailDb.Row :=
  match op with
  | EngineOp.upsert m now => GmailDb.create_message s m now
  | EngineOp.markDeleted ids now => GmailDb.mark_messages_as_deleted s ids now

/-- A query window of an incremental run: after the newest watermark, before
the oldest watermark, or unbounded. -/
inductive QueryWindow
  | afterTs (t : Nat)
  | beforeTs (t : Nat)
  | unbounded
  deriving DecidableEq

/-- Window construction of the incremental path of all_messages
(src/gmail_to_sqlite/sync.py lines 314-338): an after-window when
db.last_indexed() is non-null, a before-window when db.first_indexed() is
non-null, and the unbounded initial window when neither exists. -/
def incremental_windows (s : List GmailDb.Row) : List QueryWindow :=
  (match GmailDb.last_indexed s with
   | some t => [QueryWindow.afterTs t]
   | none => []) ++
  (match GmailDb.first_indexed s with
   | some t => [QueryWindow.beforeTs t]
   | none => []) ++
  (if GmailDb.last_indexed s = none ∧ GmailDb.first_indexed s = none then
     [QueryWindow.unbounded]
   else [])

end Sync

namespace GmailDb

theorem markRow_message_id (ids : List String) (now : Nat) (r : Row) :
    (markRow ids now r).message_id = r.message_id := by
  unfold markRow
  split <;> rfl

theorem lookup_map_of_id_preserving (f : Row → Row)
    (hf : ∀ r, (f r).message_id = r.message_id) (s : List Row) (id : String) :
    lookup (s.map f) id = (lookup s id).map f := by
  unfold lookup
  rw [List.find?_map]
  have hp : ((fun r : Row => r.message_id == id) ∘ f)
      = fun r : Row => r.message_id == id := by
    funext r
    simp [Function.comp, hf]
  rw [hp]

theorem lookup_eq_some_id {s : List Row} {id : String} {r : Row}
    (h : lookup s id = some r) : r.message_id = id := by
  have h' : s.find? (fun x => x.message_id == id) = some r := h
  have hb := List.find?_some h'
  exact eq_of_beq hb

theorem lookup_any {s : List Row} {id : String} {r : Row}
    (h : lookup s id = some r) : s.any (fun x => x.message_id == id) = true := by
  have h' : s.find? (fun x => x.message_id == id) = some r := h
  have hm := List.mem_of_find?_eq_some h'
  have hb := List.find?_some h'
  exact List.any_eq_true.mpr ⟨r, hm, hb⟩

theorem lookup_append_left {s : List Row} (t : List Row) {id : String} {r : Row}
    (h : lookup s id = some r) : lookup (s ++ t) id = some r := by
  have h' : s.find? (fun x => x.message_id == id) = some r := h
  show (s ++ t).find? (fun x => x.message_id == id) = some r
  rw [List.find?_append, h']
  rfl

theorem contains_append (x : String) (l1 l2 : List String) :
    (l1 ++ l2).contains x = (l1.contains x || l2.contains x) := by
  induction l1 with
  | nil => rfl
  | cons y ys ih =>
    simp only [List.cons_append, List.contains_cons, ih, Bool.or_assoc]

theorem markRow_markRow (b1 b2 : List String) (now : Nat) (r : Row) :
    markRow b2 now (markRow b1 now r) = markRow (b1 ++ b2) now r := by
  cases h1 : b1.contains r.message_id
  · have e1 : markRow b1 now r = r := by
      unfold markRow
      rw [h1, if_neg Bool.false_ne_true]
    rw [e1]
    unfold markRow
    rw [contains_append, h1, Bool.false_or]
  · have e1 : markRow b1 now r = { r with is_deleted := true, last_indexed := now } := by
      unfold markRow
      rw [h1, if_pos rfl]
    rw [e1]
    have e2 : markRow (b1 ++ b2) now r
        = { r with is_deleted := true, last_indexed := now } := by
      unfold markRow
      rw [contains_append, h1, Bool.true_or, if_pos rfl]
    rw [e2]
    unfold markRow
    have h2e : b2.contains
          ({ r with is_deleted := true, last_indexed := now } : Row).message_id
        = b2.contains r.message_id := rfl
    rw [h2e]
    cases h2 : b2.contains r.message_id
    · rw [if_neg Bool.false_ne_true]
    · rw [if_pos rfl]

theorem toBatchesAux_flatten (fuel : Nat) :
    ∀ l : List String, l.length ≤ fuel → (toBatchesAux fuel l).flatten = l := by
  induction fuel with
  | zero =>
    intro l h
    have h0 : l = [] := List.eq_nil_of_length_eq_zero (Nat.le_zero.mp h)
    subst h0
    rfl
  | succ fuel ih =>
    intro l h
    match l with
    | [] => rfl
    | x :: xs =>
      have hlen : ((x :: xs).drop 100).length ≤ fuel := by
        simp only [List.length_drop, List.length_cons]
        simp only [List.length_cons] at h
        omega
      simp only [toBatchesAux, List.flatten_cons]
      rw [ih ((x :: xs).drop 100) hlen, List.take_append_drop]

theorem toBatches_flatten (l : List String) : (toBatches l).flatten = l :=
  toBatchesAux_flatten l.length l le_rfl

theorem foldl_mark (now : Nat) (bs : List (List String)) :
    ∀ s : List Row,
      bs.foldl (fun acc batch => acc.map (markRow batch now)) s =
        s.map (markRow bs.flatten now) := by
  induction bs with
  | nil =>
    intro s
    simp only [List.foldl_nil, List.flatten_nil]
    symm
    have h : ∀ r ∈ s, markRow [] now r = id r := fun r _ => rfl
    rw [List.map_congr_left h, List.map_id]
  | cons b bs ih =>
    intro s
    simp only [List.foldl_cons, List.flatten_cons]
    rw [ih, List.map_map]
    apply List.map_congr_left
    intro r _
    exact markRow_markRow b bs.flatten now r

theorem mark_spec (s : List Row) (ids : List String) (now : Nat) :
    mark_messages_as_deleted s ids now = s.map (markRow ids now) := by
  unfold mark_messages_as_deleted
  by_cases hids : ids.isEmpty
  · rw [if_pos hids]
    have h0 : ids = [] := List.isEmpty_iff.mp hids
    subst h0
    symm
    have h : ∀ r ∈ s, markRow [] now r = id r := fun r _ => rfl
    rw [List.map_congr_left h, List.map_id]
  · rw [if_neg hids, foldl_mark, toBatches_flatten]

theorem lookup_mark {s : List Row} {id : String} {r : Row}
    (h : lookup s id = some r) (ids : List String) (now : Nat) :
    lookup (mark_messages_as_deleted s ids now) id = some (markRow ids now r) := by
  rw [mark_spec, lookup_map_of_id_preserving (markRow ids now) (markRow_message_id ids now) s id, h]
  rfl

theorem updateRow_message_id (r : Row) (m : Msg) (now : Nat) :
    (updateRow r m now).message_id = r.message_id := rfl

theorem create_message_update_message_id (m : Msg) (now : Nat) (r : Row) :
    ((fun r : Row => if r.message_id == m.id then updateRow r m now else r) r).message_id
      = r.message_id := by
  dsimp only
  split <;> rfl

theorem lookup_create_of_some {s : List Row} {id : String} {r : Row}
    (h : lookup s id = some r) (m : Msg) (now : Nat) :
    lookup (create_message s m now) id =
      some (if r.message_id == m.id then updateRow r m now else r) := by
  unfold create_message
  by_cases hany : s.any (fun x => x.message_id == m.id)
  · rw [if_pos hany,
      lookup_map_of_id_preserving _ (create_message_update_message_id m now) s id, h]
    rfl
  · rw [if_neg hany, lookup_append_left _ h]
    have h' : s.find? (fun x => x.message_id == id) = some r := h
    have hne : (r.message_id == m.id) = false := by
      cases hbeq : r.message_id == m.id
      · rfl
      · exact absurd
          (List.any_eq_true.mpr ⟨r, List.mem_of_find?_eq_some h', hbeq⟩) hany
    rw [hne, if_neg Bool.false_ne_true]

theorem lookup_create_conflict {s : List Row} {r : Row} {m : Msg}
    (h : lookup s m.id = some r) (now : Nat) :
    lookup (create_message s m now) m.id = some (updateRow r m now) := by
  rw [lookup_create_of_some h m now]
  have hbeq : (r.message_id == m.id) = true := by
    rw [lookup_eq_some_id h]
    exact beq_self_eq_true m.id
  rw [hbeq, if_pos rfl]

end GmailDb

namespace MailDb

theorem mail_updateRow_message_id (r : Row) (m : Msg) (clobber : List String) (now : Nat) :
    (updateRow r m clobber now).message_id = r.message_id := rfl

theorem mail_lookup_map_of_id_preserving (f : Row → Row)
    (hf : ∀ r, (f r).message_id = r.message_id) (s : List Row) (id : String) :
    lookup (s.map f) id = (lookup s id).map f := by
  unfold lookup
  rw [List.find?_map]
  have hp : ((fun r : Row => r.message_id == id) ∘ f)
      = fun r : Row => r.message_id == id := by
    funext r
    simp [Function.comp, hf]
  rw [hp]

theorem mail_lookup_eq_some_id {s : List Row} {id : String} {r : Row}
    (h : lookup s id = some r) : r.message_id = id := by
  have h' : s.find? (fun x => x.message_id == id) = some r := h
  have hb := List.find?_some h'
  exact eq_of_beq hb

theorem mail_lookup_any {s : List Row} {id : String} {r : Row}
    (h : lookup s id = some r) : s.any (fun x => x.message_id == id) = true := by
  have h' : s.find? (fun x => x.message_id == id) = some r := h
  have hm := List.mem_of_find?_eq_some h'
  have hb := List.find?_some h'
  exact List.any_eq_true.mpr ⟨r, hm, hb⟩

theorem mail_lookup_create_conflict {s : List Row} {r : Row} {m : Msg}
    (h : lookup s m.id = some r) (clobber : List String) (now : Nat) :
    lookup (create_message s m clobber now) m.id
      = some (updateRow r m clobber now) := by
  have hany : s.any (fun x => x.message_id == m.id) = true := mail_lookup_any h
  have hf : ∀ x : Row,
      ((fun x : Row => if x.message_id == m.id then updateRow x m clobber now else x) x).message_id
        = x.message_id := by
    intro x
    dsimp only
    split <;> rfl
  unfold create_message
  rw [if_pos hany, mail_lookup_map_of_id_preserving _ hf s m.id, h]
  have hbeq : (r.message_id == m.id) = true := by
    rw [mail_lookup_eq_some_id h]
    exact beq_self_eq_true m.id
  show some (if (r.message_id == m.id) = true then updateRow r m clobber now else r)
      = some (updateRow r m clobber now)
  rw [hbeq, if_pos rfl]

end MailDb

namespace LegacyDb

theorem legacy_lookup_map_of_id_preserving (f : Row → Row)
    (hf : ∀ r, (f r).message_id = r.message_id) (s : List Row) (id : String) :
    lookup (s.map f) id = (lookup s id).map f := by
  unfold lookup
  rw [List.find?_map]
  have hp : ((fun r : Row => r.message_id == id) ∘ f)
      = fun r : Row => r.message_id == id := by
    funext r
    simp [Function.comp, hf]
  rw [hp]

theorem legacy_lookup_eq_some_id {s : List Row} {id : String} {r : Row}
    (h : lookup s id = some r) : r.message_id = id := by
  have h' : s.find? (fun x => x.message_id == id) = some r := h
  have hb := List.find?_some h'
  exact eq_of_beq hb

theorem legacy_lookup_any {s : List Row} {id : String} {r : Row}
    (h : lookup s id = some r) : s.any (fun x => x.message_id == id) = true := by
  have h' : s.find? (fun x => x.message_id == id) = some r := h
  have hm := List.mem_of_find?_eq_some h'
  have hb := List.find?_some h'
  exact List.any_eq_true.mpr ⟨r, hm, hb⟩

theorem legacy_lookup_create_conflict {s : List Row} {r : Row} {m : Msg}
    (h : lookup s m.id = some r) (now : Nat) :
    lookup (create_message s m now) m.id = some (updateRow r m now) := by
  have hany : s.any (fun x => x.message_id == m.id) = true := legacy_lookup_any h
  have hf : ∀ x : Row,
      ((fun x : Row => if x.message_id == m.id then updateRow x m now else x) x).message_id
        = x.message_id := by
    intro x
    dsimp only
    split <;> rfl
  unfold create_message
  rw [if_pos hany, legacy_lookup_map_of_id_preserving _ hf s m.id, h]
  have hbeq : (r.message_id == m.id) = true := by
    rw [legacy_lookup_eq_some_id h]
    exact beq_self_eq_true m.id
  show some (if (r.message_id == m.id) = true then updateRow r m now else r)
      = some (updateRow r m now)
  rw [hbeq, if_pos rfl]

end LegacyDb

/-- A fixture message with a given id and body; the remaining fields are
fixed innocuous values. -/
def mkMsg (id : String) (body : Option String) : Msg :=
  { id := id
    thread_id := "t"
    sender := "s"
    recipients := "[]"
    labels := "[]"
    subject := none
    body := body
    size := 0
    timestamp := 0
    is_read := false
    is_outgoing := false }

/-- A fixture stored row for the explicit-clobber store. -/
def sampleMailRow : MailDb.Row :=
  { message_id := "m1"
    thread_id := "t0"
    sender := "s0"
    recipients := "[]"
    labels := "[]"
    subject := some "subj"
    body := some "A"
    size := 3
    timestamp := 11
    is_read := false
    is_outgoing := false
    last_indexed := 1 }

/-- C1 counterexample: the claim's cited src/db.py::create_message puts all
eight content columns in the on_conflict preserve list, which takes values
from the proposed INSERT, so upserting body "A" and then body "B" for the
same id in that store yields a stored body of "B", not "A" as the claim
requires. -/
theorem content_preservation_counterexample :
    (LegacyDb.lookup
        (LegacyDb.create_message
          (LegacyDb.create_message [] (mkMsg "m1" (some "A")) 1)
          (mkMsg "m1" (some "B")) 2) "m1").map (fun r => r.body)
      = some (some "B") ∧
    (LegacyDb.lookup
        (LegacyDb.create_message
          (LegacyDb.create_message [] (mkMsg "m1" (some "A")) 1)
          (mkMsg "m1" (some "B")) 2) "m1").map (fun r => r.body)
      ≠ some (some "A") := by
  decide

/-- C1 (amended): upserting a record whose id already exists, with the
empty (default) clobber set, leaves the stored content fields thread_id,
sender, recipients, subject, body, size, timestamp and is_outgoing
unchanged in the explicit-clobber store (clobber = []) and in the
gmail_to_sqlite store (whose ON CONFLICT clause never touches content
columns), where upserting body "A" and then "B" leaves the stored body "A"
for every id; in the src/db.py variant, however, the on_conflict preserve
list takes every content column from the proposed INSERT, so on conflict
all eight content fields are overwritten from the incoming record and the
same A-then-B sequence stores body "B". -/
theorem create_message_default_clobber_preserves_content :
    (∀ (s : List MailDb.Row) (m : Msg) (now : Nat) (r : MailDb.Row),
      MailDb.lookup s m.id = some r →
      ∃ r', MailDb.lookup (MailDb.create_message s m [] now) m.id = some r' ∧
        r'.thread_id = r.thread_id ∧ r'.sender = r.sender ∧
        r'.recipients = r.recipients ∧ r'.subject = r.subject ∧
        r'.body = r.body ∧ r'.size = r.size ∧
        r'.timestamp = r.timestamp ∧ r'.is_outgoing = r.is_outgoing) ∧
    (∀ (s : List GmailDb.Row) (m : Msg) (now : Nat) (r : GmailDb.Row),
      GmailDb.lookup s m.id = some r →
      ∃ r', GmailDb.lookup (GmailDb.create_message s m now) m.id = some r' ∧
        r'.thread_id = r.thread_id ∧ r'.sender = r.sender ∧
        r'.recipients = r.recipients ∧ r'.subject = r.subject ∧
        r'.body = r.body ∧ r'.size = r.size ∧
        r'.timestamp = r.timestamp ∧ r'.is_outgoing = r.is_outgoing) ∧
    (∀ (id : String) (n1 n2 : Nat),
      ∃ r', MailDb.lookup
          (MailDb.create_message
            (MailDb.create_message [] (mkMsg id (some "A")) [] n1)
            (mkMsg id (some "B")) [] n2) id = some r' ∧
        r'.body = some "A") ∧
    (∀ (s : List LegacyDb.Row) (m : Msg) (now : Nat) (r : LegacyDb.Row),
      LegacyDb.lookup s m.id = some r →
      ∃ r', LegacyDb.lookup (LegacyDb.create_message s m now) m.id = some r' ∧
        r'.thread_id = m.thread_id ∧ r'.sender = m.sender ∧
        r'.recipients = m.recipients ∧ r'.subject = m.subject ∧
        r'.body = m.body ∧ r'.size = m.size ∧
        r'.timestamp = m.timestamp ∧ r'.is_outgoing = m.is_outgoing) ∧
    (∀ (id : String) (n1 n2 : Nat),
      ∃ r', LegacyDb.lookup
          (LegacyDb.create_message
            (LegacyDb.create_message [] (mkMsg id (some "A")) n1)
            (mkMsg id (some "B")) n2) id = some r' ∧
        r'.body = some "B") := by
  refine ⟨?_, ?_, ?_, ?_, ?_⟩
  · intro s m now r h
    exact ⟨_, MailDb.mail_lookup_create_conflict h [] now,
      rfl, rfl, rfl, rfl, rfl, rfl, rfl, rfl⟩
  · intro s m now r h
    exact ⟨_, GmailDb.lookup_create_conflict h now,
      rfl, rfl, rfl, rfl, rfl, rfl, rfl, rfl⟩
  · intro id n1 n2
    have hp : ((MailDb.rowOfMsg (mkMsg id (some "A")) n1).message_id
        == (mkMsg id (some "B")).id) = true := beq_self_eq_true id
    have hlook : MailDb.lookup [MailDb.rowOfMsg (mkMsg id (some "A")) n1]
        ((mkMsg id (some "B")).id)
        = some (MailDb.rowOfMsg (mkMsg id (some "A")) n1) :=
      List.find?_cons_of_pos _ hp
    have h2 := MailDb.mail_lookup_create_conflict hlook [] n2
    exact ⟨_, h2, rfl⟩
  · intro s m now r h
    exact ⟨_, LegacyDb.legacy_lookup_create_conflict h now,
      rfl, rfl, rfl, rfl, rfl, rfl, rfl, rfl⟩
  · intro id n1 n2
    have hp : ((LegacyDb.rowOfMsg (mkMsg id (some "A")) n1).message_id
        == (mkMsg id (some "B")).id) = true := beq_self_eq_true id
    have hlook : LegacyDb.lookup [LegacyDb.rowOfMsg (mkMsg id (some "A")) n1]
        ((mkMsg id (some "B")).id)
        = some (LegacyDb.rowOfMsg (mkMsg id (some "A")) n1) :=
      List.find?_cons_of_pos _ hp
    have h2 := LegacyDb.legacy_lookup_create_conflict hlook n2
    exact ⟨_, h2, rfl⟩

/-- Witness for C1: a concrete upsert of body "B" onto a stored row with
body "A" under the empty clobber set preserves every content field. -/
theorem create_message_default_clobber_preserves_content_witness :
    ∃ r', MailDb.lookup
        (MailDb.create_message [sampleMailRow] (mkMsg "m1" (some "B")) [] 5) "m1"
        = some r' ∧
      r'.thread_id = sampleMailRow.thread_id ∧ r'.sender = sampleMailRow.sender ∧
      r'.recipients = sampleMailRow.recipients ∧ r'.subject = sampleMailRow.subject ∧
      r'.body = sampleMailRow.body ∧ r'.size = sampleMailRow.size ∧
      r'.timestamp = sampleMailRow.timestamp ∧
      r'.is_outgoing = sampleMailRow.is_outgoing :=
  create_message_default_clobber_preserves_content.1
    [sampleMailRow] (mkMsg "m1" (some "B")) 5 sampleMailRow (by decide)

/-- C8: for every content field named in the clobber set, the upsert of an
existing id overwrites that field from the incoming record; in particular
upserting body "A" then body "B" with clobber set containing "body" yields
stored body "B". -/
theorem create_message_clobber_overrides :
    (∀ (s : List MailDb.Row) (m : Msg) (clobber : List String) (now : Nat)
        (r : MailDb.Row),
      MailDb.lookup s m.id = some r →
      ∃ r', MailDb.lookup (MailDb.create_message s m clobber now) m.id = some r' ∧
        (clobber.contains "thread_id" = true → r'.thread_id = m.thread_id) ∧
        (clobber.contains "sender" = true → r'.sender = m.sender) ∧
        (clobber.contains "recipients" = true → r'.recipients = m.recipients) ∧
        (clobber.contains "subject" = true → r'.subject = m.subject) ∧
        (clobber.contains "body" = true → r'.body = m.body) ∧
        (clobber.contains "size" = true → r'.size = m.size) ∧
        (clobber.contains "timestamp" = true → r'.timestamp = m.timestamp) ∧
        (clobber.contains "is_outgoing" = true → r'.is_outgoing = m.is_outgoing)) ∧
    (∀ (id : String) (n1 n2 : Nat),
      ∃ r', MailDb.lookup
          (MailDb.create_message
            (MailDb.create_message [] (mkMsg id (some "A")) [] n1)
            (mkMsg id (some "B")) ["body"] n2) id = some r' ∧
        r'.body = some "B") := by
  constructor
  · intro s m clobber now r h
    refine ⟨_, MailDb.mail_lookup_create_conflict h clobber now,
      ?_, ?_, ?_, ?_, ?_, ?_, ?_, ?_⟩ <;>
      (intro hc; simp only [MailDb.updateRow]; rw [hc, if_pos rfl])
  · intro id n1 n2
    have hp : ((MailDb.rowOfMsg (mkMsg id (some "A")) n1).message_id
        == (mkMsg id (some "B")).id) = true := beq_self_eq_true id
    have hlook : MailDb.lookup [MailDb.rowOfMsg (mkMsg id (some "A")) n1]
        ((mkMsg id (some "B")).id)
        = some (MailDb.rowOfMsg (mkMsg id (some "A")) n1) :=
      List.find?_cons_of_pos _ hp
    have h2 := MailDb.mail_lookup_create_conflict hlook ["body"] n2
    exact ⟨_, h2, rfl⟩

theorem contains_eq_true_iff (l : List String) (x : String) :
    l.contains x = true ↔ x ∈ l := by
  have h0 : l.contains x = List.elem x l := rfl
  rw [h0]
  exact List.elem_iff

theorem contains_eq_false_iff (l : List String) (x : String) :
    l.contains x = false ↔ x ∉ l := by
  constructor
  · intro h hmem
    have hh := (contains_eq_true_iff l x).mpr hmem
    rw [h] at hh
    cases hh
  · intro h
    cases hc : l.contains x
    · rfl
    · exact absurd ((contains_eq_true_iff l x).mp hc) h

theorem mem_deleted_ids_iff {s : List GmailDb.Row}
    (hnd : (s.map (fun r => r.message_id)).Nodup) {r : GmailDb.Row} (hr : r ∈ s) :
    r.message_id ∈ GmailDb.get_deleted_message_ids s ↔ r.is_deleted = true := by
  unfold GmailDb.get_deleted_message_ids
  constructor
  · intro hmem
    rcases List.mem_map.mp hmem with ⟨x, hx, heq⟩
    rcases List.mem_filter.mp hx with ⟨hxs, hxdel⟩
    have hxr := List.inj_on_of_nodup_map hnd hxs hr heq
    rw [← hxr]
    exact hxdel
  · intro hdel
    exact List.mem_map_of_mem _ (List.mem_filter.mpr ⟨hr, hdel⟩)

theorem mem_potential_iff (s : List GmailDb.Row) (remote : List String) (x : String) :
    x ∈ Sync.potential_deleted_ids s remote ↔
      (x ∈ GmailDb.get_all_message_ids s ∧ remote.contains x = false) := by
  unfold Sync.potential_deleted_ids
  rw [List.mem_filter]
  constructor
  · rintro ⟨h1, h2⟩
    exact ⟨h1, (Bool.not_eq_true' _).mp h2⟩
  · rintro ⟨h1, h2⟩
    exact ⟨h1, (Bool.not_eq_true' _).mpr h2⟩

theorem new_deleted_contains_eq (s : List GmailDb.Row) (remote : List String)
    (hnd : (s.map (fun r => r.message_id)).Nodup) (r : GmailDb.Row) (hr : r ∈ s) :
    (Sync.new_deleted_ids s remote).contains r.message_id
      = (!r.is_deleted && !(remote.contains r.message_id)) := by
  have hx : r.message_id ∈ GmailDb.get_all_message_ids s :=
    List.mem_map_of_mem _ hr
  have hnew_mem : r.message_id ∈ Sync.new_deleted_ids s remote ↔
      (r.is_deleted = false ∧ remote.contains r.message_id = false) := by
    unfold Sync.new_deleted_ids
    by_cases hde : (GmailDb.get_deleted_message_ids s).isEmpty = true
    · rw [if_pos hde, mem_potential_iff]
      constructor
      · rintro ⟨_, hcf⟩
        refine ⟨?_, hcf⟩
        cases hdel : r.is_deleted
        · rfl
        · exfalso
          have hmem := (mem_deleted_ids_iff hnd hr).mpr hdel
          rw [List.isEmpty_iff.mp hde] at hmem
          exact List.not_mem_nil _ hmem
      · rintro ⟨_, hcf⟩
        exact ⟨hx, hcf⟩
    · rw [if_neg hde, List.mem_filter, mem_potential_iff]
      constructor
      · rintro ⟨⟨_, hcf⟩, hnotdel⟩
        refine ⟨?_, hcf⟩
        cases hdel : r.is_deleted
        · rfl
        · exfalso
          have hmem := (mem_deleted_ids_iff hnd hr).mpr hdel
          have hcon := (contains_eq_true_iff _ _).mpr hmem
          rw [(Bool.not_eq_true' _).mp hnotdel] at hcon
          cases hcon
      · rintro ⟨hdel, hcf⟩
        refine ⟨⟨hx, hcf⟩, ?_⟩
        refine (Bool.not_eq_true' _).mpr ((contains_eq_false_iff _ _).mpr ?_)
        intro hmem
        have hh := (mem_deleted_ids_iff hnd hr).mp hmem
        rw [hdel] at hh
        cases hh
  cases hdel : r.is_deleted <;> cases hc : remote.contains r.message_id
  · exact (contains_eq_true_iff _ _).mpr (hnew_mem.mpr ⟨hdel, hc⟩)
  · refine (contains_eq_false_iff _ _).mpr ?_
    intro hmem
    have h2 := (hnew_mem.mp hmem).2
    rw [hc] at h2
    cases h2
  · refine (contains_eq_false_iff _ _).mpr ?_
    intro hmem
    have h1 := (hnew_mem.mp hmem).1
    rw [hdel] at h1
    cases h1
  · refine (contains_eq_false_iff _ _).mpr ?_
    intro hmem
    have h1 := (hnew_mem.mp hmem).1
    rw [hdel] at h1
    cases h1

/-- A fixture stored row for the gmail_to_sqlite store with a given id and
deletion flag. -/
def sampleRow (id : String) (deleted : Bool) : GmailDb.Row :=
  { message_id := id
    thread_id := "t0"
    sender := "s0"
    recipients := "[]"
    labels := "[]"
    subject := some "subj"
    body := some "A"
    size := 3
    timestamp := 10
    is_read := false
    is_outgoing := false
    is_deleted := deleted
    last_indexed := 0 }

/-- C2: with unique stored ids and no shutdown request, deletion detection
rewrites the store so that exactly the active rows whose id is absent from
the remote snapshot get is_deleted = true (their last_indexed being
refreshed by the marking UPDATE), every other row — in particular every id
present in both sets — being left unchanged; and on an empty store the
detection step returns immediately, marking nothing. -/
theorem detect_deletions_marks_exactly_missing :
    (∀ (s : List GmailDb.Row) (remote : List String) (now : Nat),
      (s.map (fun r => r.message_id)).Nodup →
      (Sync.detect_and_mark_deleted_messages s remote false now).1 =
        s.map (fun r =>
          if r.is_deleted = false ∧ remote.contains r.message_id = false then
            { r with is_deleted := true, last_indexed := now }
          else r)) ∧
    (∀ (remote : List String) (shutdown : Bool) (now : Nat),
      Sync.detect_and_mark_deleted_messages [] remote shutdown now = ([], none)) := by
  constructor
  · intro s remote now hnd
    by_cases hs : s = []
    · subst hs
      rfl
    · have hne : (GmailDb.get_all_message_ids s).isEmpty = false := by
        rw [List.isEmpty_eq_false]
        unfold GmailDb.get_all_message_ids
        intro hmap
        exact hs (List.map_eq_nil_iff.mp hmap)
      have hpt : ∀ r ∈ s,
          GmailDb.markRow (Sync.new_deleted_ids s remote) now r =
            (if r.is_deleted = false ∧ remote.contains r.message_id = false then
              { r with is_deleted := true, last_indexed := now }
            else r) := by
        intro r hr
        unfold GmailDb.markRow
        rw [new_deleted_contains_eq s remote hnd r hr]
        cases hdel : r.is_deleted <;> cases hc : remote.contains r.message_id <;> rfl
      unfold Sync.detect_and_mark_deleted_messages
      rw [hne, if_neg Bool.false_ne_true, if_neg Bool.false_ne_true]
      by_cases hemp : (Sync.new_deleted_ids s remote).isEmpty = true
      · rw [if_pos hemp]
        show s = _
        symm
        have hid : ∀ r ∈ s,
            (if r.is_deleted = false ∧ remote.contains r.message_id = false then
              { r with is_deleted := true, last_indexed := now }
            else r) = id r := by
          intro r hr
          by_cases hcond : (r.is_deleted = false ∧ remote.contains r.message_id = false)
          · exfalso
            have hcontains : (Sync.new_deleted_ids s remote).contains r.message_id = true := by
              rw [new_deleted_contains_eq s remote hnd r hr, hcond.1, hcond.2]
              rfl
            have hmem := (contains_eq_true_iff _ _).mp hcontains
            rw [List.isEmpty_iff.mp hemp] at hmem
            exact List.not_mem_nil _ hmem
          · rw [if_neg hcond]
            rfl
        rw [List.map_congr_left hid, List.map_id]
      · rw [if_neg hemp]
        show GmailDb.mark_messages_as_deleted s (Sync.new_deleted_ids s remote) now = _
        rw [GmailDb.mark_spec]
        exact List.map_congr_left hpt
  · intro remote shutdown now
    rfl

/-- Witness for C2: active ids a, b, c against remote snapshot a, c: b gets
marked deleted, a and c are unchanged. -/
theorem detect_deletions_marks_exactly_missing_witness :
    (Sync.detect_and_mark_deleted_messages
      [sampleRow "a" false, sampleRow "b" false, sampleRow "c" false]
      ["a", "c"] false 3).1
      = [sampleRow "a" false,
         { sampleRow "b" false with is_deleted := true, last_indexed := 3 },
         sampleRow "c" false] := by
  have h := detect_deletions_marks_exactly_missing.1
    [sampleRow "a" false, sampleRow "b" false, sampleRow "c" false]
    ["a", "c"] 3 (by decide)
  rw [h]
  decide

/-- C9 counterexample: the marking UPDATE of the deletion detector rewrites
last_indexed as well as is_deleted, so a marked row does not change only in
its deletion flag. -/
theorem mark_deleted_changes_last_indexed_counterexample :
    GmailDb.mark_messages_as_deleted [sampleRow "m1" false] ["m1"] 7
      = [{ sampleRow "m1" false with is_deleted := true, last_indexed := 7 }] ∧
    (sampleRow "m1" false).last_indexed = 0 ∧
    ({ sampleRow "m1" false with is_deleted := true, last_indexed := 7 } : GmailDb.Row).last_indexed
      ≠ (sampleRow "m1" false).last_indexed := by
  refine ⟨by decide, rfl, by decide⟩

/-- C3: over the engine's store-mutating operations, a stored row's
is_deleted flag transitions false→true only through the deletion detector's
marking operation (with that id among the marked ids) and true→false only
through an upsert of that same id; in particular a successful
fetch-and-upsert of a soft-deleted id leaves its is_deleted flag false. -/
theorem is_deleted_transition_invariant :
    (∀ (s : List GmailDb.Row) (op : Sync.EngineOp) (id : String)
        (r r' : GmailDb.Row),
      GmailDb.lookup s id = some r →
      GmailDb.lookup (op.apply s) id = some r' →
      r.is_deleted = false → r'.is_deleted = true →
      ∃ ids now, op = Sync.EngineOp.markDeleted ids now ∧ ids.contains id = true) ∧
    (∀ (s : List GmailDb.Row) (op : Sync.EngineOp) (id : String)
        (r r' : GmailDb.Row),
      GmailDb.lookup s id = some r →
      GmailDb.lookup (op.apply s) id = some r' →
      r.is_deleted = true → r'.is_deleted = false →
      ∃ m now, op = Sync.EngineOp.upsert m now ∧ m.id = id) ∧
    (∀ (s : List GmailDb.Row) (m : Msg) (now : Nat) (r : GmailDb.Row),
      GmailDb.lookup s m.id = some r → r.is_deleted = true →
      ∃ r', GmailDb.lookup ((Sync.EngineOp.upsert m now).apply s) m.id = some r' ∧
        r'.is_deleted = false) := by
  refine ⟨?_, ?_, ?_⟩
  · intro s op id r r' h1 h2 h3 h4
    cases op with
    | upsert m now =>
      exfalso
      rw [show (Sync.EngineOp.upsert m now).apply s = GmailDb.create_message s m now from rfl] at h2
      rw [GmailDb.lookup_create_of_some h1 m now] at h2
      have heq := Option.some.inj h2
      cases hbeq : r.message_id == m.id
      · rw [hbeq, if_neg Bool.false_ne_true] at heq
        rw [heq, h4] at h3
        cases h3
      · rw [hbeq, if_pos rfl] at heq
        rw [← heq] at h4
        simp [GmailDb.updateRow] at h4
    | markDeleted ids now =>
      rw [show (Sync.EngineOp.markDeleted ids now).apply s
          = GmailDb.mark_messages_as_deleted s ids now from rfl] at h2
      rw [GmailDb.lookup_mark h1 ids now] at h2
      have heq := Option.some.inj h2
      cases hc : ids.contains r.message_id
      · exfalso
        unfold GmailDb.markRow at heq
        rw [hc, if_neg Bool.false_ne_true] at heq
        rw [heq, h4] at h3
        cases h3
      · refine ⟨ids, now, rfl, ?_⟩
        rw [← GmailDb.lookup_eq_some_id h1]
        exact hc
  · intro s op id r r' h1 h2 h3 h4
    cases op with
    | upsert m now =>
      rw [show (Sync.EngineOp.upsert m now).apply s = GmailDb.create_message s m now from rfl] at h2
      rw [GmailDb.lookup_create_of_some h1 m now] at h2
      have heq := Option.some.inj h2
      cases hbeq : r.message_id == m.id
      · exfalso
        rw [hbeq, if_neg Bool.false_ne_true] at heq
        rw [heq, h4] at h3
        cases h3
      · refine ⟨m, now, rfl, ?_⟩
        rw [← GmailDb.lookup_eq_some_id h1]
        exact (eq_of_beq hbeq).symm
    | markDeleted ids now =>
      exfalso
      rw [show (Sync.EngineOp.markDeleted ids now).apply s
          = GmailDb.mark_messages_as_deleted s ids now from rfl] at h2
      rw [GmailDb.lookup_mark h1 ids now] at h2
      have heq := Option.some.inj h2
      cases hc : ids.contains r.message_id
      · unfold GmailDb.markRow at heq
        rw [hc, if_neg Bool.false_ne_true] at heq
        rw [heq, h4] at h3
        cases h3
      · unfold GmailDb.markRow at heq
        rw [hc, if_pos rfl] at heq
        rw [← heq] at h4
        simp at h4
  · intro s m now r h hdel
    exact ⟨_, GmailDb.lookup_create_conflict h now, rfl⟩

/-- Witness for C3: re-upserting a concrete soft-deleted row resets its
is_deleted flag to false. -/
theorem is_deleted_transition_invariant_witness :
    ∃ r', GmailDb.lookup ((Sync.EngineOp.upsert (mkMsg "m1" (some "X")) 9).apply
        [sampleRow "m1" true]) "m1" = some r' ∧ r'.is_deleted = false :=
  is_deleted_transition_invariant.2.2 [sampleRow "m1" true]
    (mkMsg "m1" (some "X")) 9 (sampleRow "m1" true) (by decide) (by decide)

/-- C9 (amended): for every id the deletion detector marks, the stored row
changes only in its is_deleted flag and its last_indexed timestamp (set to
the marking time); every other field is unchanged, unmarked rows are
untouched, and no row is ever physically removed (the row count is
preserved). -/
theorem mark_deleted_frame_condition :
    ∀ (s : List GmailDb.Row) (ids : List String) (now : Nat),
      (GmailDb.mark_messages_as_deleted s ids now).length = s.length ∧
      List.Forall₂ (fun r r' : GmailDb.Row =>
        (ids.contains r.message_id = false → r' = r) ∧
        (ids.contains r.message_id = true →
          r' = { r with is_deleted := true, last_indexed := now }))
        s (GmailDb.mark_messages_as_deleted s ids now) := by
  intro s ids now
  rw [GmailDb.mark_spec]
  constructor
  · exact List.length_map s (GmailDb.markRow ids now)
  · rw [List.forall₂_map_right_iff]
    rw [List.forall₂_same]
    intro r _
    constructor
    · intro hc
      unfold GmailDb.markRow
      rw [hc, if_neg Bool.false_ne_true]
    · intro hc
      unfold GmailDb.markRow
      rw [hc, if_pos rfl]

/-- C5: a fetch failing transiently (timeout or 5xx-equivalent server
error) on the first two attempts and succeeding on the third reports
success after exactly 3 provider calls and exactly 2 fixed-delay backoff
sleeps, under the retry cap MAX_RETRY_ATTEMPTS = 3 and the fixed delay
RETRY_DELAY_SECONDS = 5. -/
theorem transient_retry_accounting :
    ∀ outcomes : Nat → Sync.AttemptOutcome,
      Sync.transient (outcomes 0) → Sync.transient (outcomes 1) →
      outcomes 2 = Sync.AttemptOutcome.success →
      Sync.fetch_message outcomes (fun _ => false)
          = (Sync.FetchResult.fetched, 3, 2) ∧
        MAX_RETRY_ATTEMPTS = 3 ∧ RETRY_DELAY_SECONDS = 5 := by
  intro outcomes h0 h1 h2
  refine ⟨?_, rfl, rfl⟩
  rcases h0 with h0 | ⟨st0, hst0, h0⟩ <;> rcases h1 with h1 | ⟨st1, hst1, h1⟩ <;>
    simp [Sync.fetch_message, Sync.fetchAux, MAX_RETRY_ATTEMPTS, h0, h1, h2, *]

/-- Witness for C5: two timeouts then a success yield exactly 3 provider
calls and 2 sleeps. -/
theorem transient_retry_accounting_witness :
    Sync.fetch_message
        (fun i => if i < 2 then Sync.AttemptOutcome.timeout
                  else Sync.AttemptOutcome.success)
        (fun _ => false)
      = (Sync.FetchResult.fetched, 3, 2) ∧
      MAX_RETRY_ATTEMPTS = 3 ∧ RETRY_DELAY_SECONDS = 5 :=
  transient_retry_accounting _ (Or.inl rfl) (Or.inl rfl) rfl

/-- C4 counterexample: a decode failure is not treated as a permanent
error: with every attempt decoding unsuccessfully, the fetcher makes 3
provider calls and performs 2 backoff sleeps before recording the
per-message failure — not exactly 1 provider call and 0 sleeps as the
claim states for decode failures. -/
theorem permanent_error_counterexample :
    Sync.fetch_message (fun _ => Sync.AttemptOutcome.decodeFailure) (fun _ => false)
      = (Sync.FetchResult.syncError, 3, 2) ∧
    (Sync.fetch_message (fun _ => Sync.AttemptOutcome.decodeFailure)
        (fun _ => false)).2 ≠ (1, 0) :=
  ⟨rfl, by decide⟩

/-- C4 (amended): a fetch failing with an HTTP client error (status below
500) records the per-message failure after exactly 1 provider call and 0
sleeps with no retry; a decode failure, however, is retried like a
transient error, so persistent decode failures record the failure only
after 3 provider calls and 2 sleeps. -/
theorem permanent_error_accounting :
    (∀ (outcomes : Nat → Sync.AttemptOutcome) (status : Nat),
      outcomes 0 = Sync.AttemptOutcome.httpError status → status < 500 →
      Sync.fetch_message outcomes (fun _ => false)
        = (Sync.FetchResult.syncError, 1, 0)) ∧
    (∀ outcomes : Nat → Sync.AttemptOutcome,
      (∀ i, outcomes i = Sync.AttemptOutcome.decodeFailure) →
      Sync.fetch_message outcomes (fun _ => false)
        = (Sync.FetchResult.syncError, 3, 2)) := by
  constructor
  · intro outcomes status h0 hlt
    have hn : ¬(500 ≤ status) := by omega
    simp [Sync.fetch_message, Sync.fetchAux, MAX_RETRY_ATTEMPTS, h0, hn]
  · intro outcomes hdec
    simp [Sync.fetch_message, Sync.fetchAux, MAX_RETRY_ATTEMPTS,
      hdec 0, hdec 1, hdec 2]

/-- Witness for C4: a 404 client error fails after 1 call and 0 sleeps,
while persistent decode failures fail after 3 calls and 2 sleeps. -/
theorem permanent_error_accounting_witness :
    Sync.fetch_message (fun _ => Sync.AttemptOutcome.httpError 404) (fun _ => false)
      = (Sync.FetchResult.syncError, 1, 0) ∧
    Sync.fetch_message (fun _ => Sync.AttemptOutcome.decodeFailure) (fun _ => false)
      = (Sync.FetchResult.syncError, 3, 2) :=
  ⟨permanent_error_accounting.1 _ 404 rfl (by decide),
   permanent_error_accounting.2 _ (fun _ => rfl)⟩

theorem shutdownAt_mono {cancelAt : Option Nat} {p q : Nat} (hpq : p ≤ q)
    (h : Sync.shutdownAt cancelAt p = true) : Sync.shutdownAt cancelAt q = true := by
  cases cancelAt with
  | none => cases h
  | some k =>
    unfold Sync.shutdownAt at h ⊢
    rw [decide_eq_true_eq] at h ⊢
    omega

/-- C6 counterexample: with cancellation observed between the first and the
second page, id "a" was already collected from the completed first page,
yet the listing returns the empty list and nothing reaches the fetch stage
of the run. -/
theorem listing_cancellation_counterexample :
    "a" ∈ (Sync.collect_pages (some 1) [(["a", "b"], true), (["c"], false)] 0 []).1 ∧
    Sync.all_messages_dispatched (some 1) [(["a", "b"], true), (["c"], false)] = [] ∧
    ¬("a" ∈ Sync.all_messages_dispatched (some 1)
        [(["a", "b"], true), (["c"], false)]) := by
  decide

/-- C6 (amended): when cancellation is observed during the paginated
listing phase, the already-collected ids are discarded along with the
remaining pages: the listing returns the empty list and the run exits
before the fetch stage, dispatching nothing; when cancellation is never
requested, every collected id is dispatched. -/
theorem listing_cancellation_discards_all :
    ∀ (cancelAt : Option Nat) (pages : List (List String × Bool)),
      (Sync.shutdownAt cancelAt (Sync.collect_pages cancelAt pages 0 []).2 = true →
        Sync.get_message_ids_from_gmail cancelAt pages = [] ∧
        Sync.all_messages_dispatched cancelAt pages = []) ∧
      (cancelAt = none →
        Sync.all_messages_dispatched cancelAt pages
          = (Sync.collect_pages cancelAt pages 0 []).1) := by
  intro cancelAt pages
  constructor
  · intro h
    have h2 : Sync.shutdownAt cancelAt
        ((Sync.collect_pages cancelAt pages 0 []).2 + 1) = true :=
      shutdownAt_mono (Nat.le_succ _) h
    constructor
    · unfold Sync.get_message_ids_from_gmail
      rw [h, if_pos rfl]
    · unfold Sync.all_messages_dispatched
      rw [h2, if_pos rfl]
  · intro hnone
    subst hnone
    rfl

/-- Witness for C6: cancellation at poll 1 of a concrete two-page listing
discards the two ids collected from the completed first page. -/
theorem listing_cancellation_discards_all_witness :
    Sync.get_message_ids_from_gmail (some 1) [(["a", "b"], true), (["c"], false)] = [] ∧
    Sync.all_messages_dispatched (some 1) [(["a", "b"], true), (["c"], false)] = [] :=
  (listing_cancellation_discards_all (some 1)
    [(["a", "b"], true), (["c"], false)]).1 (by decide)

/-- C7 counterexample: an id listed by two overlapping query windows
appears twice in the dispatch list — one submitted task per listing
occurrence — so candidate ids are not deduplicated before dispatch and the
same id is handed to two worker tasks within one run. -/
theorem dispatch_dedup_counterexample :
    (Sync.submitted_task_ids [["m1"], ["m1"]]).count "m1" = 2 ∧
    ¬((Sync.submitted_task_ids [["m1"], ["m1"]]).count "m1" ≤ 1) := by
  decide

/-- C7 (amended): the candidate ids gathered from the query windows are
concatenated without deduplication and one task is submitted per element,
so the dispatched multiset is exactly the flattening of the window
listings: an id listed by several windows is dispatched once per listing
occurrence. -/
theorem dispatch_concatenates_windows :
    ∀ (window_listings : List (List String)) (id : String),
      Sync.submitted_task_ids window_listings = window_listings.flatten ∧
      (Sync.submitted_task_ids window_listings).count id
        = (window_listings.map (fun w => w.count id)).sum := by
  have hfold : ∀ (ws : List (List String)) (acc : List String),
      ws.foldl (fun a b => a ++ b) acc = acc ++ ws.flatten := by
    intro ws
    induction ws with
    | nil =>
      intro acc
      simp
    | cons w ws ih =>
      intro acc
      rw [List.foldl_cons, ih (acc ++ w), List.flatten_cons, List.append_assoc]
  intro ws id
  have hfl : Sync.submitted_task_ids ws = ws.flatten := by
    unfold Sync.submitted_task_ids Sync.collected_candidate_ids
    rw [hfold ws []]
    rfl
  have hcnt : ∀ ws : List (List String),
      ws.flatten.count id = (ws.map (fun w => w.count id)).sum := by
    intro ws
    induction ws with
    | nil => rfl
    | cons w ws ih =>
      rw [List.flatten_cons, List.count_append, List.map_cons, List.sum_cons, ih]
  exact ⟨hfl, by rw [hfl]; exact hcnt ws⟩

theorem foldl_max_eq {t : Nat} :
    ∀ (l : List Nat) (a : Nat), a ≤ t → (∀ x ∈ l, x ≤ t) → (t = a ∨ t ∈ l) →
      l.foldl (fun u v => max u v) a = t := by
  intro l
  induction l with
  | nil =>
    intro a _ _ hmem
    rcases hmem with rfl | hmem
    · rfl
    · exact absurd hmem (List.not_mem_nil t)
  | cons x xs ih =>
    intro a ha hl hmem
    rw [List.foldl_cons]
    apply ih (max a x)
    · exact max_le ha (hl x (List.mem_cons_self x xs))
    · intro y hy
      exact hl y (List.mem_cons_of_mem x hy)
    · rcases hmem with rfl | hx
      · left
        exact (max_eq_left (hl x (List.mem_cons_self x xs))).symm
      · rcases List.mem_cons.mp hx with rfl | hxs
        · left
          exact (max_eq_right ha).symm
        · right
          exact hxs

theorem foldl_min_eq {t : Nat} :
    ∀ (l : List Nat) (a : Nat), t ≤ a → (∀ x ∈ l, t ≤ x) → (t = a ∨ t ∈ l) →
      l.foldl (fun u v => min u v) a = t := by
  intro l
  induction l with
  | nil =>
    intro a _ _ hmem
    rcases hmem with rfl | hmem
    · rfl
    · exact absurd hmem (List.not_mem_nil t)
  | cons x xs ih =>
    intro a ha hl hmem
    rw [List.foldl_cons]
    apply ih (min a x)
    · exact le_min ha (hl x (List.mem_cons_self x xs))
    · intro y hy
      exact hl y (List.mem_cons_of_mem x hy)
    · rcases hmem with rfl | hx
      · left
        exact (min_eq_left (hl x (List.mem_cons_self x xs))).symm
      · rcases List.mem_cons.mp hx with rfl | hxs
        · left
          exact (min_eq_right ha).symm
        · right
          exact hxs

/-- C10: the watermark queries last_indexed and first_indexed range over
every stored row with no filter on is_deleted, so a soft-deleted row
holding the maximum (resp. minimum) timestamp determines the watermark and
thereby the after (resp. before) window of the next incremental run. -/
theorem watermarks_include_deleted_rows :
    ∀ (s : List GmailDb.Row) (r : GmailDb.Row), r ∈ s → r.is_deleted = true →
      ((∀ x ∈ s, x.timestamp ≤ r.timestamp) →
        GmailDb.last_indexed s = some r.timestamp ∧
        Sync.QueryWindow.afterTs r.timestamp ∈ Sync.incremental_windows s) ∧
      ((∀ x ∈ s, r.timestamp ≤ x.timestamp) →
        GmailDb.first_indexed s = some r.timestamp ∧
        Sync.QueryWindow.beforeTs r.timestamp ∈ Sync.incremental_windows s) := by
  intro s r hr hdel
  constructor
  · intro hmax
    have hli : GmailDb.last_indexed s = some r.timestamp := by
      cases s with
      | nil => cases hr
      | cons hd tl =>
        show some ((tl.map (fun x => x.timestamp)).foldl
            (fun a b => max a b) hd.timestamp) = some r.timestamp
        refine congrArg some ?_
        apply foldl_max_eq
        · exact hmax hd (List.mem_cons_self hd tl)
        · intro y hy
          rcases List.mem_map.mp hy with ⟨x, hx, rfl⟩
          exact hmax x (List.mem_cons_of_mem hd hx)
        · rcases List.mem_cons.mp hr with rfl | hrtl
          · left
            rfl
          · right
            exact List.mem_map_of_mem _ hrtl
    refine ⟨hli, ?_⟩
    unfold Sync.incremental_windows
    rw [hli]
    simp
  · intro hmin
    have hfi : GmailDb.first_indexed s = some r.timestamp := by
      cases s with
      | nil => cases hr
      | cons hd tl =>
        show some ((tl.map (fun x => x.timestamp)).foldl
            (fun a b => min a b) hd.timestamp) = some r.timestamp
        refine congrArg some ?_
        apply foldl_min_eq
        · exact hmin hd (List.mem_cons_self hd tl)
        · intro y hy
          rcases List.mem_map.mp hy with ⟨x, hx, rfl⟩
          exact hmin x (List.mem_cons_of_mem hd hx)
        · rcases List.mem_cons.mp hr with rfl | hrtl
          · left
            rfl
          · right
            exact List.mem_map_of_mem _ hrtl
    refine ⟨hfi, ?_⟩
    unfold Sync.incremental_windows
    rw [hfi]
    simp

/-- Witness for C10: a concrete soft-deleted row with the largest timestamp
determines the last_indexed watermark and the after-window. -/
theorem watermarks_include_deleted_rows_witness :
    GmailDb.last_indexed
        [sampleRow "a" false, { sampleRow "b" true with timestamp := 42 }]
      = some 42 ∧
    Sync.QueryWindow.afterTs 42 ∈ Sync.incremental_windows
        [sampleRow "a" false, { sampleRow "b" true with timestamp := 42 }] :=
  (watermarks_include_deleted_rows
    [sampleRow "a" false, { sampleRow "b" true with timestamp := 42 }]
    { sampleRow "b" true with timestamp := 42 }
    (by decide) (by decide)).1 (by decide)

/-- Witness for C8: overwriting the body of a concrete stored row through
the clobber set yields the incoming body. -/
theorem create_message_clobber_overrides_witness :
    ∃ r', MailDb.lookup
        (MailDb.create_message [sampleMailRow] (mkMsg "m1" (some "B")) ["body"] 5) "m1"
        = some r' ∧
      ((["body"] : List String).contains "body" = true → r'.body = (mkMsg "m1" (some "B")).body) := by
  have h := (create_message_clobber_overrides.1
    [sampleMailRow] (mkMsg "m1" (some "B")) ["body"] 5 sampleMailRow (by decide))
  exact ⟨h.choose, h.choose_spec.1, h.choose_spec.2.2.2.2.2.1⟩

end GmailToSqlite
